import Mathlib

/-!
Shallow embedding of the CollabWish JSON API backend (Backend/src/index.js).

The in-memory store (`defaultData`) and every HTTP mutation handler are
translated into pure Lean functions.  Time stamps (`nowISO()`) and fresh
identifiers (`uuidv4()`) are passed as explicit parameters; JavaScript
object mutation inside an array is modelled as an update of the first
element matching the mutated object's key (JS `find` returns the first
match and mutates it in place).  Fallible handlers return `Except Err _`
with `Err.notFound` for 404 responses and `Err.invalidInput` for 400
responses.
-/

/-- Reaction kind enum, `z.enum(["LIKE", "DISLIKE"])`. -/
inductive Kind where
  | LIKE
  | DISLIKE
deriving DecidableEq, Repr

/-- List visibility enum, `z.enum(["PRIVATE", "LINK", "PUBLIC"])`. -/
inductive Visibility where
  | PRIVATE
  | LINK
  | PUBLIC
deriving DecidableEq, Repr

/-- `users` entry: id, phoneNumber, name, email, profilePictureUrl,
createdAt, updatedAt, shopListIds. -/
structure User where
  id : String
  phoneNumber : String
  name : String
  email : Option String
  profilePictureUrl : Option String
  createdAt : String
  updatedAt : String
  shopListIds : List String
deriving DecidableEq, Repr

/-- `products` entry: id (numeric), name, price, mrp, rating, inStock,
imageUrl.  Numeric fields are modelled as integers; no claim computes
with them. -/
structure Product where
  id : Nat
  name : String
  price : Int
  mrp : Int
  rating : Int
  inStock : Bool
  imageUrl : String
deriving DecidableEq, Repr

/-- `shopLists` entry: id, name, visibility, ownerId, createdAt,
updatedAt, participantIds. -/
structure ShopList where
  id : String
  name : String
  visibility : Visibility
  ownerId : String
  createdAt : String
  updatedAt : String
  participantIds : List String
deriving DecidableEq, Repr

/-- `shopListItems` entry: id, productId, shopListId, addedByUserId,
addedAt. -/
structure ShopListItem where
  id : String
  productId : Nat
  shopListId : String
  addedByUserId : String
  addedAt : String
deriving DecidableEq, Repr

/-- `reactions` entry: userId, itemId, kind. -/
structure Reaction where
  userId : String
  itemId : String
  kind : Kind
deriving DecidableEq, Repr

/-- `suggestions` entry: id, itemId, suggestedProductId, byUserId, ts. -/
structure Suggestion where
  id : String
  itemId : String
  suggestedProductId : Nat
  byUserId : String
  ts : String
deriving DecidableEq, Repr

/-- The whole JSON file store (`defaultData` shape): six collections. -/
structure Store where
  users : List User
  products : List Product
  shopLists : List ShopList
  shopListItems : List ShopListItem
  reactions : List Reaction
  suggestions : List Suggestion
deriving DecidableEq, Repr

/-- Error outcomes of the HTTP handlers: 404 and 400 responses. -/
inductive Err where
  | notFound
  | invalidInput
deriving DecidableEq, Repr

/-- Update the first element satisfying `p` (JS `array.find(...)`
followed by in-place mutation of the found object). -/
def updateFirst (p : α → Bool) (f : α → α) : List α → List α
  | [] => []
  | a :: as => if p a then f a :: as else a :: updateFirst p f as

/-- The ids of all lists in the store. -/
def Store.listIds (s : Store) : List String :=
  s.shopLists.map (fun l => l.id)

/-- The ids of all items in the store. -/
def Store.itemIds (s : Store) : List String :=
  s.shopListItems.map (fun i => i.id)

/-- The membership-set mutation shared by `POST /lists` (owner and
phone participants) and `POST /lists/:id/join`: push the list id into
the user's `shopListIds` if not already present. -/
def addListToUser (listId : String) (u : User) : User :=
  if u.shopListIds.contains listId then u
  else { u with shopListIds := u.shopListIds ++ [listId] }

/-- `findOrCreateUserByPhone(phoneNumber, nameFallback)`: look a user up
by phone number; when absent, create one with a fresh id and empty
membership set and push it onto `store.users`. -/
def findOrCreateUserByPhone (s : Store) (phoneNumber nameFallback freshId now : String) :
    Store × User :=
  match s.users.find? (fun x => x.phoneNumber == phoneNumber) with
  | some u => (s, u)
  | none =>
    let u : User :=
      { id := freshId, phoneNumber := phoneNumber, name := nameFallback,
        email := none, profilePictureUrl := none,
        createdAt := now, updatedAt := now, shopListIds := [] }
    ({ s with users := s.users ++ [u] }, u)

/-- The `for (const ph of phones)` loop of `POST /lists`: resolve each
phone to a user (creating placeholders), add the user to the pending
participant list and the new list id to the user's membership set.
`fresh n`, `fresh (n+1)`, ... supplies the uuids of created users.
Returns the updated store, the accumulated participant ids, and the
next fresh index. -/
def addPhoneParticipants (s : Store) (newListId : String) (pids : List String)
    (phones : List String) (fresh : Nat → String) (n : Nat) (now : String) :
    Store × List String × Nat :=
  match phones with
  | [] => (s, pids, n)
  | ph :: rest =>
    let fallback := "User " ++ ph.takeRight 4
    let (s1, u) := findOrCreateUserByPhone s ph fallback (fresh n) now
    let pids1 := if pids.contains u.id then pids else pids ++ [u.id]
    let users2 := updateFirst (fun x => x.id == u.id) (addListToUser newListId) s1.users
    addPhoneParticipants { s1 with users := users2 } newListId pids1 rest fresh (n + 1) now

/-- The successful body of `POST /lists` (after validation): the new
list record starts with an empty participant array, the owner is
pushed, the owner's membership set gains the new id, the phone loop
runs, and the list is unshifted onto the list collection. -/
def createListResult (s : Store) (ownerId name : String) (visibility : Visibility)
    (phones : List String) (newListId : String) (fresh : Nat → String) (now : String) :
    Store × ShopList :=
  let pids0 : List String := []
  let pids1 := if pids0.contains ownerId then pids0 else pids0 ++ [ownerId]
  let s1 := { s with
    users := updateFirst (fun u => u.id == ownerId) (addListToUser newListId) s.users }
  let res := addPhoneParticipants s1 newListId pids1 phones fresh 0 now
  let list : ShopList :=
    { id := newListId, name := name, visibility := visibility, ownerId := ownerId,
      createdAt := now, updatedAt := now, participantIds := res.2.1 }
  ({ res.1 with shopLists := list :: res.1.shopLists }, list)

/-- JavaScript `String.prototype.trim`: strip whitespace from both
ends (modelled over the character list; `String.trim` of the core
library has the same meaning but does not reduce in the kernel). -/
def trimString (s : String) : String :=
  String.mk (((s.data.dropWhile Char.isWhitespace).reverse.dropWhile Char.isWhitespace).reverse)

/-- `POST /lists`: validate the (untrimmed) name non-empty, default the
visibility to LINK, trim the name, and build the new list. -/
def createList (s : Store) (ownerId rawName : String) (vis : Option Visibility)
    (phones : List String) (newListId : String) (fresh : Nat → String) (now : String) :
    Except Err (Store × ShopList) :=
  if rawName.length = 0 then .error .invalidInput
  else .ok (createListResult s ownerId (trimString rawName) (vis.getD .LINK) phones newListId fresh now)

/-- `DELETE /lists/:id`: 404 when the list is absent; otherwise drop the
list's items, keep only reactions and suggestions whose item survives,
drop the list, and strip the id from every user's membership set. -/
def deleteList (s : Store) (id : String) : Except Err Store :=
  match s.shopLists.find? (fun x => x.id == id) with
  | none => .error .notFound
  | some _ =>
    let items1 := s.shopListItems.filter (fun i => i.shopListId != id)
    let reactions1 := s.reactions.filter (fun r => items1.any (fun i => i.id == r.itemId))
    let suggestions1 := s.suggestions.filter (fun g => items1.any (fun i => i.id == g.itemId))
    let lists1 := s.shopLists.filter (fun x => x.id != id)
    let users1 := s.users.map
      (fun u => { u with shopListIds := u.shopListIds.filter (fun lid => lid != id) })
    .ok { s with shopListItems := items1, reactions := reactions1,
                 suggestions := suggestions1, shopLists := lists1, users := users1 }

/-- The mutation `POST /lists/:id/join` applies to the found list:
push the user into the participant set if absent, refresh `updatedAt`. -/
def joinListFun (userId now : String) (l : ShopList) : ShopList :=
  let ps := if l.participantIds.contains userId then l.participantIds
            else l.participantIds ++ [userId]
  { l with participantIds := ps, updatedAt := now }

/-- `POST /lists/:id/join`: 404 when the list is absent; otherwise add
the user to the list's participant set if not already present, add the
list id to the user's membership set if not already present, and
refresh the list's `updatedAt`. -/
def joinList (s : Store) (listId userId now : String) : Except Err Store :=
  match s.shopLists.find? (fun l => l.id == listId) with
  | none => .error .notFound
  | some _ =>
    let lists1 := updateFirst (fun l => l.id == listId) (joinListFun userId now) s.shopLists
    let users1 := updateFirst (fun u => u.id == userId) (addListToUser listId) s.users
    .ok { s with shopLists := lists1, users := users1 }

/-- `POST /lists/:id/items`: 400 when `Number(productId)` is falsy
(absent, NaN or 0), 404 when the product is absent; otherwise unshift a
new item.  The list id is never checked. -/
def addItem (s : Store) (listId : String) (productIdRaw : Option Nat)
    (userId newId now : String) : Except Err (Store × ShopListItem) :=
  match productIdRaw with
  | none => .error .invalidInput
  | some pid =>
    if pid = 0 then .error .invalidInput
    else
      match s.products.find? (fun p => p.id == pid) with
      | none => .error .notFound
      | some _ =>
        let item : ShopListItem :=
          { id := newId, productId := pid, shopListId := listId,
            addedByUserId := userId, addedAt := now }
        .ok ({ s with shopListItems := item :: s.shopListItems }, item)

/-- `DELETE /items/:itemId`: 404 when the item is absent; otherwise drop
the item and every reaction and suggestion referencing its id. -/
def removeItem (s : Store) (itemId : String) : Except Err Store :=
  if s.shopListItems.any (fun i => i.id == itemId) then
    .ok { s with
      shopListItems := s.shopListItems.filter (fun i => i.id != itemId),
      reactions := s.reactions.filter (fun r => r.itemId != itemId),
      suggestions := s.suggestions.filter (fun g => g.itemId != itemId) }
  else .error .notFound

/-- The reaction-array transition of `POST /items/:itemId/react`:
`findIndex` locates the first reaction of the (user, item) pair; a match
of the requested kind is spliced out, a match of the other kind has its
kind overwritten, and otherwise a new reaction is pushed at the end. -/
def toggleList (userId itemId : String) (kind : Kind) : List Reaction → List Reaction
  | [] => [{ userId := userId, itemId := itemId, kind := kind }]
  | r :: rs =>
    if r.userId == userId && r.itemId == itemId then
      if r.kind == kind then rs else { r with kind := kind } :: rs
    else r :: toggleList userId itemId kind rs

/-- Response payload of `POST /items/:itemId/react`. -/
structure ReactPayload where
  itemId : String
  likes : Nat
  dislikes : Nat
deriving DecidableEq, Repr

/-- `POST /items/:itemId/react`: apply the toggle transition, then
recompute the like and dislike counts for the item over the updated
reaction array.  The item id is never checked. -/
def toggleReaction (s : Store) (userId itemId : String) (kind : Kind) :
    Store × ReactPayload :=
  let reactions1 := toggleList userId itemId kind s.reactions
  let likes := (reactions1.filter (fun r => r.itemId == itemId && r.kind == Kind.LIKE)).length
  let dislikes := (reactions1.filter (fun r => r.itemId == itemId && r.kind == Kind.DISLIKE)).length
  ({ s with reactions := reactions1 }, { itemId := itemId, likes := likes, dislikes := dislikes })

/-- `POST /items/:itemId/suggest`: 404 when the product is absent;
otherwise push a new suggestion.  The item id is never checked. -/
def addSuggestion (s : Store) (itemId : String) (productId : Nat)
    (byUserId newId ts : String) : Except Err (Store × Suggestion) :=
  match s.products.find? (fun p => p.id == productId) with
  | none => .error .notFound
  | some _ =>
    let sg : Suggestion :=
      { id := newId, itemId := itemId, suggestedProductId := productId,
        byUserId := byUserId, ts := ts }
    .ok ({ s with suggestions := s.suggestions ++ [sg] }, sg)

/-- A suggestion decorated with its resolved product and proposer
(`enrichItem`'s inner map). -/
structure EnrichedSuggestion where
  suggestion : Suggestion
  product : Option Product
  byUser : Option User
deriving DecidableEq, Repr

/-- An item decorated with its resolved product, reactions and
decorated suggestions (`enrichItem`). -/
structure EnrichedItem where
  item : ShopListItem
  product : Option Product
  reactions : List Reaction
  suggestions : List EnrichedSuggestion
deriving DecidableEq, Repr

/-- `enrichItem(i)`: pure read-side projection. -/
def enrichItem (s : Store) (i : ShopListItem) : EnrichedItem :=
  { item := i,
    product := s.products.find? (fun p => p.id == i.productId),
    reactions := s.reactions.filter (fun r => r.itemId == i.id),
    suggestions := (s.suggestions.filter (fun g => g.itemId == i.id)).map
      (fun g => { suggestion := g,
                  product := s.products.find? (fun p => p.id == g.suggestedProductId),
                  byUser := s.users.find? (fun u => u.id == g.byUserId) }) }

/-- `GET /lists/:id/items`: filter the items owned by the id, sort them
most-recent-first by `addedAt`, and enrich each.  The list id is never
checked against the list collection. -/
def listItemsOf (s : Store) (listId : String) : List EnrichedItem :=
  (((s.shopListItems.filter (fun i => i.shopListId == listId)).mergeSort
      (fun a b => decide (b.addedAt ≤ a.addedAt))).map (enrichItem s))

/-! ## Persistence (`saveStore` / `loadStore`)

`saveStore` writes `JSON.stringify(store)` to disk and `loadStore` reads
the file back with `JSON.parse`, trusting its shape.  The file contents
are modelled as a JSON document value: `saveStore` is the encoding of
the store into that document and `loadStore` is the shape-trusting read
of an existing document back into the store record (the seed/default
fallback of `loadStore` concerns a missing file and is outside the
save-then-load round trip).  JSON numbers carry the integers used by
this data set. -/

/-- JSON document values. -/
inductive Json where
  | null
  | bool (b : Bool)
  | num (n : Int)
  | str (s : String)
  | arr (elems : List Json)
  | obj (fields : List (String × Json))
deriving Repr

/-- Encode a nullable string field. -/
def encOptStr : Option String → Json
  | none => .null
  | some s => .str s

/-- Decode a nullable string field. -/
def decOptStr : Json → Option (Option String)
  | .null => some none
  | .str s => some (some s)
  | _ => none

/-- Encode a string array field. -/
def encStrList (l : List String) : Json :=
  .arr (l.map Json.str)

/-- Decode one string. -/
def decStr : Json → Option String
  | .str s => some s
  | _ => none

/-- Decode a homogeneous JSON array elementwise. -/
def decArr (dec : Json → Option α) : List Json → Option (List α)
  | [] => some []
  | j :: js => do
    let a ← dec j
    let as ← decArr dec js
    pure (a :: as)

/-- Decode a string array field. -/
def decStrList : Json → Option (List String)
  | .arr js => decArr decStr js
  | _ => none

/-- Look a field up in a JSON object (JS property access on the parsed
document). -/
def getField (name : String) : Json → Option Json
  | .obj fields => fields.lookup name
  | _ => none

def encVisibility : Visibility → Json
  | .PRIVATE => .str "PRIVATE"
  | .LINK => .str "LINK"
  | .PUBLIC => .str "PUBLIC"

def decVisibility : Json → Option Visibility
  | .str "PRIVATE" => some .PRIVATE
  | .str "LINK" => some .LINK
  | .str "PUBLIC" => some .PUBLIC
  | _ => none

def encKind : Kind → Json
  | .LIKE => .str "LIKE"
  | .DISLIKE => .str "DISLIKE"

def decKind : Json → Option Kind
  | .str "LIKE" => some .LIKE
  | .str "DISLIKE" => some .DISLIKE
  | _ => none

def encUser (u : User) : Json :=
  .obj [("id", .str u.id), ("phoneNumber", .str u.phoneNumber), ("name", .str u.name),
        ("email", encOptStr u.email), ("profilePictureUrl", encOptStr u.profilePictureUrl),
        ("createdAt", .str u.createdAt), ("updatedAt", .str u.updatedAt),
        ("shopListIds", encStrList u.shopListIds)]

def decUser (j : Json) : Option User := do
  let id ← getField "id" j >>= decStr
  let phoneNumber ← getField "phoneNumber" j >>= decStr
  let name ← getField "name" j >>= decStr
  let email ← getField "email" j >>= decOptStr
  let profilePictureUrl ← getField "profilePictureUrl" j >>= decOptStr
  let createdAt ← getField "createdAt" j >>= decStr
  let updatedAt ← getField "updatedAt" j >>= decStr
  let shopListIds ← getField "shopListIds" j >>= decStrList
  pure { id := id, phoneNumber := phoneNumber, name := name, email := email,
         profilePictureUrl := profilePictureUrl, createdAt := createdAt,
         updatedAt := updatedAt, shopListIds := shopListIds }

def encProduct (p : Product) : Json :=
  .obj [("id", .num p.id), ("name", .str p.name), ("price", .num p.price),
        ("mrp", .num p.mrp), ("rating", .num p.rating), ("inStock", .bool p.inStock),
        ("imageUrl", .str p.imageUrl)]

def decNat : Json → Option Nat
  | .num n => if n < 0 then none else some n.toNat
  | _ => none

def decInt : Json → Option Int
  | .num n => some n
  | _ => none

def decBool : Json → Option Bool
  | .bool b => some b
  | _ => none

def decProduct (j : Json) : Option Product := do
  let id ← getField "id" j >>= decNat
  let name ← getField "name" j >>= decStr
  let price ← getField "price" j >>= decInt
  let mrp ← getField "mrp" j >>= decInt
  let rating ← getField "rating" j >>= decInt
  let inStock ← getField "inStock" j >>= decBool
  let imageUrl ← getField "imageUrl" j >>= decStr
  pure { id := id, name := name, price := price, mrp := mrp, rating := rating,
         inStock := inStock, imageUrl := imageUrl }

def encShopList (l : ShopList) : Json :=
  .obj [("id", .str l.id), ("name", .str l.name),
        ("visibility", encVisibility l.visibility), ("ownerId", .str l.ownerId),
        ("createdAt", .str l.createdAt), ("updatedAt", .str l.updatedAt),
        ("participantIds", encStrList l.participantIds)]

def decShopList (j : Json) : Option ShopList := do
  let id ← getField "id" j >>= decStr
  let name ← getField "name" j >>= decStr
  let visibility ← getField "visibility" j >>= decVisibility
  let ownerId ← getField "ownerId" j >>= decStr
  let createdAt ← getField "createdAt" j >>= decStr
  let updatedAt ← getField "updatedAt" j >>= decStr
  let participantIds ← getField "participantIds" j >>= decStrList
  pure { id := id, name := name, visibility := visibility, ownerId := ownerId,
         createdAt := createdAt, updatedAt := updatedAt, participantIds := participantIds }

def encShopListItem (i : ShopListItem) : Json :=
  .obj [("id", .str i.id), ("productId", .num i.productId),
        ("shopListId", .str i.shopListId), ("addedByUserId", .str i.addedByUserId),
        ("addedAt", .str i.addedAt)]

def decShopListItem (j : Json) : Option ShopListItem := do
  let id ← getField "id" j >>= decStr
  let productId ← getField "productId" j >>= decNat
  let shopListId ← getField "shopListId" j >>= decStr
  let addedByUserId ← getField "addedByUserId" j >>= decStr
  let addedAt ← getField "addedAt" j >>= decStr
  pure { id := id, productId := productId, shopListId := shopListId,
         addedByUserId := addedByUserId, addedAt := addedAt }

def encReaction (r : Reaction) : Json :=
  .obj [("userId", .str r.userId), ("itemId", .str r.itemId), ("kind", encKind r.kind)]

def decReaction (j : Json) : Option Reaction := do
  let userId ← getField "userId" j >>= decStr
  let itemId ← getField "itemId" j >>= decStr
  let kind ← getField "kind" j >>= decKind
  pure { userId := userId, itemId := itemId, kind := kind }

def encSuggestion (g : Suggestion) : Json :=
  .obj [("id", .str g.id), ("itemId", .str g.itemId),
        ("suggestedProductId", .num g.suggestedProductId),
        ("byUserId", .str g.byUserId), ("ts", .str g.ts)]

def decSuggestion (j : Json) : Option Suggestion := do
  let id ← getField "id" j >>= decStr
  let itemId ← getField "itemId" j >>= decStr
  let suggestedProductId ← getField "suggestedProductId" j >>= decNat
  let byUserId ← getField "byUserId" j >>= decStr
  let ts ← getField "ts" j >>= decStr
  pure { id := id, itemId := itemId, suggestedProductId := suggestedProductId,
         byUserId := byUserId, ts := ts }

/-- Decode a collection field of the store document. -/
def decCollection (dec : Json → Option α) (name : String) (j : Json) : Option (List α) :=
  match getField name j with
  | some (.arr js) => decArr dec js
  | _ => none

/-- `saveStore(store)`: the JSON document written to `data/store.json`
(`JSON.stringify(store, null, 2)`). -/
def saveStore (s : Store) : Json :=
  .obj [("users", .arr (s.users.map encUser)),
        ("products", .arr (s.products.map encProduct)),
        ("shopLists", .arr (s.shopLists.map encShopList)),
        ("shopListItems", .arr (s.shopListItems.map encShopListItem)),
        ("reactions", .arr (s.reactions.map encReaction)),
        ("suggestions", .arr (s.suggestions.map encSuggestion))]

/-- `loadStore()` on an existing snapshot file: `JSON.parse` of the
document read back into the store shape. -/
def loadStore (j : Json) : Option Store := do
  let users ← decCollection decUser "users" j
  let products ← decCollection decProduct "products" j
  let shopLists ← decCollection decShopList "shopLists" j
  let shopListItems ← decCollection decShopListItem "shopListItems" j
  let reactions ← decCollection decReaction "reactions" j
  let suggestions ← decCollection decSuggestion "suggestions" j
  pure { users := users, products := products, shopLists := shopLists,
         shopListItems := shopListItems, reactions := reactions,
         suggestions := suggestions }

/-! ## Operation sequences

The entity operations of §4.2 as a step function: each constructor
carries the request parameters together with the ambient timestamp and
fresh-id inputs.  A rejected request (the handler returns an error
before any mutation) leaves the store unchanged. -/

/-- One entity-operation request. -/
inductive Op where
  | createList (ownerId rawName : String) (vis : Option Visibility)
      (phones : List String) (newListId : String) (fresh : Nat → String) (now : String)
  | deleteList (id : String)
  | joinList (listId userId now : String)
  | addItem (listId : String) (productIdRaw : Option Nat) (userId newId now : String)
  | removeItem (itemId : String)
  | toggleReaction (userId itemId : String) (kind : Kind)
  | addSuggestion (itemId : String) (productId : Nat) (byUserId newId ts : String)

/-- Apply one operation; rejected requests leave the store unchanged. -/
def step (s : Store) : Op → Store
  | .createList ownerId rawName vis phones newListId fresh now =>
    match createList s ownerId rawName vis phones newListId fresh now with
    | .ok (s1, _) => s1
    | .error _ => s
  | .deleteList id =>
    match deleteList s id with
    | .ok s1 => s1
    | .error _ => s
  | .joinList listId userId now =>
    match joinList s listId userId now with
    | .ok s1 => s1
    | .error _ => s
  | .addItem listId productIdRaw userId newId now =>
    match addItem s listId productIdRaw userId newId now with
    | .ok (s1, _) => s1
    | .error _ => s
  | .removeItem itemId =>
    match removeItem s itemId with
    | .ok s1 => s1
    | .error _ => s
  | .toggleReaction userId itemId kind => (toggleReaction s userId itemId kind).1
  | .addSuggestion itemId productId byUserId newId ts =>
    match addSuggestion s itemId productId byUserId newId ts with
    | .ok (s1, _) => s1
    | .error _ => s

/-- Apply a sequence of operations in order. -/
def steps (s : Store) (ops : List Op) : Store :=
  ops.foldl step s

/-! ## Invariants -/

/-- At most one reaction per (user-id, item-id) pair: no two entries of
the reaction collection share both ids. -/
def AtMostOnePerPair (s : Store) : Prop :=
  s.reactions.Pairwise (fun a b => ¬(a.userId = b.userId ∧ a.itemId = b.itemId))

/-- No orphaned entities: every item's owning list exists, and every
reaction's and suggestion's item exists. -/
def OrphanFree (s : Store) : Prop :=
  (∀ it ∈ s.shopListItems, it.shopListId ∈ s.listIds) ∧
  (∀ r ∈ s.reactions, r.itemId ∈ s.itemIds) ∧
  (∀ g ∈ s.suggestions, g.itemId ∈ s.itemIds)

instance (s : Store) : Decidable (AtMostOnePerPair s) := by
  unfold AtMostOnePerPair; infer_instance

instance (s : Store) : Decidable (OrphanFree s) := by
  unfold OrphanFree Store.listIds Store.itemIds; infer_instance

/-- Guard under which an operation only references existing targets:
add-item names an existing list, and toggle-reaction and add-suggestion
name an existing item. -/
def opGuard (s : Store) : Op → Prop
  | .addItem listId _ _ _ _ => listId ∈ s.listIds
  | .toggleReaction _ itemId _ => itemId ∈ s.itemIds
  | .addSuggestion itemId _ _ _ _ => itemId ∈ s.itemIds
  | _ => True

/-- A trace whose every operation satisfies `opGuard` in the state where
it runs. -/
def SafeTrace : Store → List Op → Prop
  | _, [] => True
  | s, op :: ops => opGuard s op ∧ SafeTrace (step s op) ops

instance (s : Store) (op : Op) : Decidable (opGuard s op) := by
  cases op <;> (unfold opGuard Store.listIds Store.itemIds; infer_instance)

instance instDecSafeTrace (s : Store) (ops : List Op) : Decidable (SafeTrace s ops) :=
  match ops with
  | [] => .isTrue trivial
  | op :: rest =>
    have d2 : Decidable (SafeTrace (step s op) rest) := instDecSafeTrace (step s op) rest
    @instDecidableAnd _ _ inferInstance d2

/-- Elementwise array decoding inverts elementwise encoding. -/
theorem decArr_map (dec : Json → Option α) (enc : α → Json)
    (h : ∀ a, dec (enc a) = some a) : ∀ l : List α, decArr dec (l.map enc) = some l
  | [] => rfl
  | a :: as => by simp [decArr, h a, decArr_map dec enc h as, bind]

theorem decUser_encUser (u : User) : decUser (encUser u) = some u := by
  cases u with
  | mk id ph nm em pic ca ua sl =>
    cases em <;> cases pic <;>
      simp [decUser, encUser, getField, List.lookup, decStr, decOptStr, decStrList,
            encOptStr, encStrList, bind, decArr_map decStr Json.str (fun a => rfl)]

/-- Decoding a JSON number that encodes a natural number. -/
theorem decNat_natCast (n : Nat) : decNat (Json.num (n : Int)) = some n := by
  have h : ¬((n : Int) < 0) := by omega
  simp [decNat, h]

theorem decProduct_encProduct (p : Product) : decProduct (encProduct p) = some p := by
  cases p with
  | mk id nm pr mrp rat st im =>
    simp [decProduct, encProduct, getField, List.lookup, decStr, decNat_natCast, decInt, decBool, bind]

theorem decShopList_encShopList (l : ShopList) : decShopList (encShopList l) = some l := by
  cases l with
  | mk id nm vis ow ca ua ps =>
    cases vis <;>
      simp [decShopList, encShopList, getField, List.lookup, decStr, decVisibility,
            encVisibility, decStrList, encStrList, bind,
            decArr_map decStr Json.str (fun a => rfl)]

theorem decShopListItem_encShopListItem (i : ShopListItem) :
    decShopListItem (encShopListItem i) = some i := by
  cases i with
  | mk id pid lid uid at1 =>
    simp [decShopListItem, encShopListItem, getField, List.lookup, decStr, decNat_natCast, bind]

theorem decReaction_encReaction (r : Reaction) : decReaction (encReaction r) = some r := by
  cases r with
  | mk uid iid k =>
    cases k <;>
      simp [decReaction, encReaction, getField, List.lookup, decStr, decKind, encKind, bind]

theorem decSuggestion_encSuggestion (g : Suggestion) :
    decSuggestion (encSuggestion g) = some g := by
  cases g with
  | mk id iid pid uid ts =>
    simp [decSuggestion, encSuggestion, getField, List.lookup, decStr, decNat_natCast, bind]

/-- C7: for every store state (including one with empty collections),
saving the store and then loading it reproduces an identical entity
set: `loadStore` after `saveStore` is the identity on the store's six
collections. -/
theorem loadStore_saveStore (s : Store) : loadStore (saveStore s) = some s := by
  cases s with
  | mk us ps ls its rs gs =>
    simp [loadStore, saveStore, decCollection, getField, List.lookup, bind,
          decArr_map decUser encUser decUser_encUser,
          decArr_map decProduct encProduct decProduct_encProduct,
          decArr_map decShopList encShopList decShopList_encShopList,
          decArr_map decShopListItem encShopListItem decShopListItem_encShopListItem,
          decArr_map decReaction encReaction decReaction_encReaction,
          decArr_map decSuggestion encSuggestion decSuggestion_encSuggestion]

/-- A list with the given id exists in the store. -/
def listExists (s : Store) (id : String) : Prop :=
  ∃ l ∈ s.shopLists, l.id = id

instance (s : Store) (id : String) : Decidable (listExists s id) := by
  unfold listExists; infer_instance

/-- When a matching list exists, `deleteList` takes its success branch
and produces exactly the filtered store of the handler body. -/
theorem deleteList_eq_ok (s : Store) (id : String) (h : listExists s id) :
    deleteList s id = .ok
      { s with
        shopListItems := s.shopListItems.filter (fun i => i.shopListId != id),
        reactions := s.reactions.filter (fun r =>
          (s.shopListItems.filter (fun i => i.shopListId != id)).any (fun i => i.id == r.itemId)),
        suggestions := s.suggestions.filter (fun g =>
          (s.shopListItems.filter (fun i => i.shopListId != id)).any (fun i => i.id == g.itemId)),
        shopLists := s.shopLists.filter (fun x => x.id != id),
        users := s.users.map
          (fun u => { u with shopListIds := u.shopListIds.filter (fun lid => lid != id) }) } := by
  obtain ⟨l, hl, hid⟩ := h
  unfold deleteList
  cases hfind : s.shopLists.find? (fun x => x.id == id) with
  | none =>
    rw [List.find?_eq_none] at hfind
    exact absurd (by simp [hid]) (hfind l hl)
  | some l0 => rfl

/-- Post-state specification of the delete-list cascade (claim C2): the
operation succeeds and afterwards no item of the list, no reaction or
suggestion on such an item, no list with the id, and no membership
entry for the id remains. -/
def DeleteCascadeSpec (s : Store) (L : String) : Prop :=
  ∃ s1, deleteList s L = .ok s1 ∧
    (∀ it ∈ s1.shopListItems, it.shopListId ≠ L) ∧
    (∀ r ∈ s1.reactions, ∀ it ∈ s.shopListItems, it.shopListId = L → r.itemId ≠ it.id) ∧
    (∀ g ∈ s1.suggestions, ∀ it ∈ s.shopListItems, it.shopListId = L → g.itemId ≠ it.id) ∧
    (∀ l1 ∈ s1.shopLists, l1.id ≠ L) ∧
    (∀ u ∈ s1.users, L ∉ u.shopListIds)

/-- C2: deleting an existing list removes every item owned by it, every
reaction and suggestion referencing any of those items, the list
itself, and the list id from every user's membership set, so that no
entity references the list afterwards.  Item ids are assumed pairwise
distinct, as the data model requires of identifiers. -/
theorem deleteList_cascades (s : Store) (L : String) (h : listExists s L)
    (hnd : (s.shopListItems.map (fun i => i.id)).Nodup) : DeleteCascadeSpec s L := by
  refine ⟨_, deleteList_eq_ok s L h, ?_, ?_, ?_, ?_, ?_⟩
  · intro it hit
    have := (List.mem_filter.mp hit).2
    simpa using this
  · intro r hr it hit hitL heq
    have hpred := (List.mem_filter.mp hr).2
    obtain ⟨it1, hit1, hid1⟩ := List.any_eq_true.mp hpred
    have hit1mem := (List.mem_filter.mp hit1).1
    have hit1L : it1.shopListId ≠ L := by simpa using (List.mem_filter.mp hit1).2
    have : it1 = it := by
      refine List.inj_on_of_nodup_map hnd hit1mem hit ?_
      simp only [beq_iff_eq] at hid1
      rw [hid1, heq]
    exact hit1L (this ▸ hitL)
  · intro g hg it hit hitL heq
    have hpred := (List.mem_filter.mp hg).2
    obtain ⟨it1, hit1, hid1⟩ := List.any_eq_true.mp hpred
    have hit1mem := (List.mem_filter.mp hit1).1
    have hit1L : it1.shopListId ≠ L := by simpa using (List.mem_filter.mp hit1).2
    have : it1 = it := by
      refine List.inj_on_of_nodup_map hnd hit1mem hit ?_
      simp only [beq_iff_eq] at hid1
      rw [hid1, heq]
    exact hit1L (this ▸ hitL)
  · intro l1 hl1
    have := (List.mem_filter.mp hl1).2
    simpa using this
  · intro u hu hLmem
    obtain ⟨u0, _, rfl⟩ := List.mem_map.mp hu
    have := (List.mem_filter.mp hLmem).2
    simp at this

/-- A concrete store exercising the witnesses: two users, two products,
two lists with one item each, two reactions and one suggestion. -/
def sampleStore : Store :=
  { users := [{ id := "u1", phoneNumber := "111", name := "A", email := none,
                profilePictureUrl := none, createdAt := "t0", updatedAt := "t0",
                shopListIds := ["L1", "L2"] },
              { id := "u2", phoneNumber := "222", name := "B", email := none,
                profilePictureUrl := none, createdAt := "t0", updatedAt := "t0",
                shopListIds := ["L1"] }],
    products := [{ id := 1, name := "p", price := 10, mrp := 12, rating := 4,
                   inStock := true, imageUrl := "i" },
                 { id := 2, name := "q", price := 20, mrp := 22, rating := 5,
                   inStock := false, imageUrl := "j" }],
    shopLists := [{ id := "L1", name := "g", visibility := .LINK, ownerId := "u1",
                    createdAt := "t0", updatedAt := "t0", participantIds := ["u1", "u2"] },
                  { id := "L2", name := "h", visibility := .PRIVATE, ownerId := "u1",
                    createdAt := "t0", updatedAt := "t0", participantIds := ["u1"] }],
    shopListItems := [{ id := "it1", productId := 1, shopListId := "L1",
                        addedByUserId := "u1", addedAt := "t1" },
                      { id := "it2", productId := 2, shopListId := "L2",
                        addedByUserId := "u1", addedAt := "t2" }],
    reactions := [{ userId := "u2", itemId := "it1", kind := .LIKE },
                  { userId := "u1", itemId := "it2", kind := .DISLIKE }],
    suggestions := [{ id := "sg1", itemId := "it1", suggestedProductId := 2,
                      byUserId := "u2", ts := "t3" }] }

theorem deleteList_cascades_witness :
    (listExists sampleStore "L1" ∧
      (sampleStore.shopListItems.map (fun i => i.id)).Nodup) ∧
    DeleteCascadeSpec sampleStore "L1" :=
  ⟨by decide, deleteList_cascades sampleStore "L1" (by decide) (by decide)⟩

/-- Frame specification of delete-list (claim C10): the operation
succeeds; products are untouched, the list collection loses exactly the
lists with the deleted id, the item collection loses exactly the items
owned by it, every reaction and suggestion attached to a surviving item
is kept with its exact value, and users change only by losing the id
from their membership sets. -/
def DeleteFrameSpec (s : Store) (L : String) : Prop :=
  ∃ s1, deleteList s L = .ok s1 ∧
    s1.products = s.products ∧
    s1.shopLists = s.shopLists.filter (fun x => x.id != L) ∧
    s1.shopListItems = s.shopListItems.filter (fun i => i.shopListId != L) ∧
    (∀ r ∈ s.reactions, (∃ it ∈ s1.shopListItems, it.id = r.itemId) → r ∈ s1.reactions) ∧
    (∀ g ∈ s.suggestions, (∃ it ∈ s1.shopListItems, it.id = g.itemId) → g ∈ s1.suggestions) ∧
    s1.users = s.users.map
      (fun u => { u with shopListIds := u.shopListIds.filter (fun lid => lid != L) })

/-- C10: deleting an existing list leaves every entity not tied to it
unchanged: products, other lists, items of other lists, and reactions
and suggestions attached to still-existing items keep their exact
values, and users change only by losing the deleted id from their
membership sets. -/
theorem deleteList_frame (s : Store) (L : String) (h : listExists s L) :
    DeleteFrameSpec s L := by
  refine ⟨_, deleteList_eq_ok s L h, rfl, rfl, rfl, ?_, ?_, rfl⟩
  · intro r hr hex
    refine List.mem_filter.mpr ⟨hr, ?_⟩
    obtain ⟨it, hit, hid⟩ := hex
    exact List.any_eq_true.mpr ⟨it, hit, by simp [hid]⟩
  · intro g hg hex
    refine List.mem_filter.mpr ⟨hg, ?_⟩
    obtain ⟨it, hit, hid⟩ := hex
    exact List.any_eq_true.mpr ⟨it, hit, by simp [hid]⟩

theorem deleteList_frame_witness :
    listExists sampleStore "L2" ∧ DeleteFrameSpec sampleStore "L2" :=
  ⟨by decide, deleteList_frame sampleStore "L2" (by decide)⟩

/-- `find?` after `updateFirst` with a predicate-preserving update finds
the updated element. -/
theorem find?_updateFirst (p : α → Bool) (f : α → α) (hp : ∀ a, p (f a) = p a) :
    ∀ l : List α, (updateFirst p f l).find? p = (l.find? p).map f
  | [] => rfl
  | a :: as => by
    by_cases h : p a
    · simp [updateFirst, h, List.find?_cons, hp a]
    · simp [updateFirst, h, List.find?_cons, find?_updateFirst p f hp as]

/-- Two first-match updates with a predicate-preserving first update
compose. -/
theorem updateFirst_updateFirst (p : α → Bool) (f g : α → α) (hp : ∀ a, p (f a) = p a) :
    ∀ l : List α, updateFirst p g (updateFirst p f l) = updateFirst p (fun a => g (f a)) l
  | [] => rfl
  | a :: as => by
    by_cases h : p a
    · simp [updateFirst, h, hp a]
    · simp [updateFirst, h, updateFirst_updateFirst p f g hp as]

/-- Properties of the join mutation functions. -/
theorem joinListFun_id (userId now : String) (l : ShopList) :
    (joinListFun userId now l).id = l.id := rfl

theorem addListToUser_id (listId : String) (u : User) :
    (addListToUser listId u).id = u.id := by
  unfold addListToUser
  split <;> rfl

theorem addListToUser_idem (listId : String) (u : User) :
    addListToUser listId (addListToUser listId u) = addListToUser listId u := by
  unfold addListToUser
  by_cases hc : u.shopListIds.contains listId = true
  · rw [if_pos hc, if_pos hc]
  · rw [if_neg hc]
    have hc2 : (({ u with shopListIds := u.shopListIds ++ [listId] } : User)).shopListIds.contains
        listId = true := by simp
    rw [if_pos hc2]

theorem joinListFun_join (userId t1 t2 : String) (l : ShopList) :
    joinListFun userId t2 (joinListFun userId t1 l) =
      { joinListFun userId t1 l with updatedAt := t2 } := by
  unfold joinListFun
  by_cases hc : l.participantIds.contains userId = true
  · have hc2 : (({ l with participantIds := l.participantIds, updatedAt := t1 } :
        ShopList)).participantIds.contains userId = true := hc
    rw [if_pos hc, if_pos hc2]
  · have hc2 : (({ l with participantIds := l.participantIds ++ [userId], updatedAt := t1 } :
        ShopList)).participantIds.contains userId = true := by simp
    rw [if_neg hc, if_pos hc2]

/-- When a matching list exists, `joinList` takes its success branch. -/
theorem joinList_eq_ok (s : Store) (listId userId now : String) (h : listExists s listId) :
    joinList s listId userId now = .ok
      { s with
        shopLists := updateFirst (fun l => l.id == listId) (joinListFun userId now) s.shopLists,
        users := updateFirst (fun u => u.id == userId) (addListToUser listId) s.users } := by
  obtain ⟨l, hl, hid⟩ := h
  unfold joinList
  cases hfind : s.shopLists.find? (fun x => x.id == listId) with
  | none =>
    rw [List.find?_eq_none] at hfind
    exact absurd (by simp [hid]) (hfind l hl)
  | some l0 => rfl

/-- Idempotence specification of join (claim C6): both joins succeed,
the second changes nothing but the first matching list's `updatedAt`,
the user is in the participant set at most once more than before, and
the list id enters the user's membership set symmetrically. -/
def JoinIdemSpec (s : Store) (L u t1 t2 : String) : Prop :=
  ∃ s1 s2, joinList s L u t1 = .ok s1 ∧ joinList s1 L u t2 = .ok s2 ∧
    s2.users = s1.users ∧
    s2.shopLists = updateFirst (fun l => l.id == L)
      (fun l => { l with updatedAt := t2 }) s1.shopLists ∧
    s2.products = s1.products ∧ s2.shopListItems = s1.shopListItems ∧
    s2.reactions = s1.reactions ∧ s2.suggestions = s1.suggestions ∧
    (∀ l0, s.shopLists.find? (fun l => l.id == L) = some l0 →
      s2.shopLists.find? (fun l => l.id == L) = some
        { l0 with
          participantIds := if l0.participantIds.contains u then l0.participantIds
                            else l0.participantIds ++ [u],
          updatedAt := t2 }) ∧
    (∀ u0, s.users.find? (fun x => x.id == u) = some u0 →
      s2.users.find? (fun x => x.id == u) = some (addListToUser L u0))

/-- C6: join-list is idempotent for an existing list: joining twice
yields the same participant sets and membership sets as joining once,
the only difference being the refreshed timestamp; the user enters the
participant set at most once in total and the membership set
symmetrically. -/
theorem joinList_idempotent (s : Store) (L u t1 t2 : String) (h : listExists s L) :
    JoinIdemSpec s L u t1 t2 := by
  have hplist : ∀ a : ShopList,
      ((fun l => l.id == L) (joinListFun u t1 a)) = ((fun l : ShopList => l.id == L) a) :=
    fun a => rfl
  have hpuser : ∀ a : User,
      ((fun x => x.id == u) (addListToUser L a)) = ((fun x : User => x.id == u) a) :=
    fun a => by show ((addListToUser L a).id == u) = (a.id == u); rw [addListToUser_id]
  have hpuser2 : ∀ a : User,
      ((fun x => x.id == u) (addListToUser L (addListToUser L a))) =
        ((fun x : User => x.id == u) a) :=
    fun a => by
      show ((addListToUser L (addListToUser L a)).id == u) = (a.id == u)
      rw [addListToUser_id, addListToUser_id]
  have hplist2 : ∀ a : ShopList,
      ((fun l => l.id == L) (joinListFun u t2 (joinListFun u t1 a))) =
        ((fun l : ShopList => l.id == L) a) :=
    fun a => rfl
  have hfind : ∃ l0, s.shopLists.find? (fun l => l.id == L) = some l0 := by
    obtain ⟨l, hl, hid⟩ := h
    cases hf : s.shopLists.find? (fun l => l.id == L) with
    | none =>
      rw [List.find?_eq_none] at hf
      exact absurd (by simp [hid]) (hf l hl)
    | some l0 => exact ⟨l0, rfl⟩
  obtain ⟨l0, hl0⟩ := hfind
  have h1 := joinList_eq_ok s L u t1 h
  have hexists1 : listExists
      { s with
        shopLists := updateFirst (fun l => l.id == L) (joinListFun u t1) s.shopLists,
        users := updateFirst (fun x => x.id == u) (addListToUser L) s.users } L := by
    have hf1 := find?_updateFirst (fun l => l.id == L) (joinListFun u t1) hplist s.shopLists
    rw [hl0] at hf1
    exact ⟨_, List.mem_of_find?_eq_some hf1, by simpa using List.find?_some hf1⟩
  have h2 := joinList_eq_ok _ L u t2 hexists1
  refine ⟨_, _, h1, h2, ?_, ?_, rfl, rfl, rfl, rfl, ?_, ?_⟩
  · show updateFirst (fun x : User => x.id == u) (addListToUser L)
        (updateFirst (fun x : User => x.id == u) (addListToUser L) s.users) = _
    rw [updateFirst_updateFirst _ _ _ hpuser]
    congr 1
    funext a
    exact addListToUser_idem L a
  · show updateFirst (fun l : ShopList => l.id == L) (joinListFun u t2)
        (updateFirst (fun l : ShopList => l.id == L) (joinListFun u t1) s.shopLists) = _
    rw [updateFirst_updateFirst _ _ _ hplist, updateFirst_updateFirst _ _ _ hplist]
    congr 1
    funext a
    exact joinListFun_join u t1 t2 a
  · intro l1 hl1
    rw [hl0] at hl1
    cases hl1
    show (updateFirst (fun l : ShopList => l.id == L) (joinListFun u t2)
        (updateFirst (fun l : ShopList => l.id == L) (joinListFun u t1) s.shopLists)).find?
        (fun l => l.id == L) = _
    rw [updateFirst_updateFirst _ _ _ hplist,
        find?_updateFirst (fun l => l.id == L)
          (fun a => joinListFun u t2 (joinListFun u t1 a)) hplist2 s.shopLists, hl0]
    show some (joinListFun u t2 (joinListFun u t1 l0)) = _
    refine congrArg some ((joinListFun_join u t1 t2 l0).trans ?_)
    unfold joinListFun
    by_cases hc : l0.participantIds.contains u = true
    · rw [if_pos hc]
    · rw [if_neg hc]
  · intro u0 hu0
    show (updateFirst (fun x : User => x.id == u) (addListToUser L)
        (updateFirst (fun x : User => x.id == u) (addListToUser L) s.users)).find?
        (fun x => x.id == u) = _
    rw [updateFirst_updateFirst _ _ _ hpuser,
        find?_updateFirst (fun x => x.id == u)
          (fun a => addListToUser L (addListToUser L a)) hpuser2 s.users, hu0]
    exact congrArg some (addListToUser_idem L u0)

theorem joinList_idempotent_witness :
    listExists sampleStore "L2" ∧ JoinIdemSpec sampleStore "L2" "u2" "t7" "t8" :=
  ⟨by decide, joinList_idempotent sampleStore "L2" "u2" "t7" "t8" (by decide)⟩

/-- The reactions of one (user, item) pair inside a reaction array. -/
def reactionsOf (rs : List Reaction) (u i : String) : List Reaction :=
  rs.filter (fun r => r.userId == u && r.itemId == i)

/-- The reactions of every other (user, item) pair. -/
def reactionsOfOthers (rs : List Reaction) (u i : String) : List Reaction :=
  rs.filter (fun r => !(r.userId == u && r.itemId == i))

/-- Toggling on an array holding no reaction of the pair pushes a new
reaction at the end. -/
theorem toggleList_of_none (u i : String) (k : Kind) :
    ∀ rs : List Reaction, reactionsOf rs u i = [] →
      toggleList u i k rs = rs ++ [{ userId := u, itemId := i, kind := k }]
  | [], _ => rfl
  | r :: rs, h => by
    unfold reactionsOf at h
    rw [List.filter_cons] at h
    by_cases hm : (r.userId == u && r.itemId == i) = true
    · rw [if_pos hm] at h
      exact absurd h (by simp)
    · rw [if_neg hm] at h
      unfold toggleList
      rw [if_neg hm, toggleList_of_none u i k rs h]
      rfl

/-- Toggling never touches the reactions of other pairs. -/
theorem toggleList_others (u i : String) (k : Kind) :
    ∀ rs : List Reaction,
      reactionsOfOthers (toggleList u i k rs) u i = reactionsOfOthers rs u i
  | [] => by simp [toggleList, reactionsOfOthers, List.filter_cons]
  | r :: rs => by
    unfold toggleList
    by_cases hm : (r.userId == u && r.itemId == i) = true
    · rw [if_pos hm]
      by_cases hk : (r.kind == k) = true
      · rw [if_pos hk]
        unfold reactionsOfOthers
        rw [List.filter_cons, if_neg (by simp [hm])]
      · rw [if_neg hk]
        unfold reactionsOfOthers
        rw [List.filter_cons, List.filter_cons]
        have hm2 : (({ r with kind := k } : Reaction).userId == u &&
            ({ r with kind := k } : Reaction).itemId == i) = true := hm
        rw [if_neg (by simp [hm2]), if_neg (by simp [hm])]
    · rw [if_neg hm]
      unfold reactionsOfOthers
      rw [List.filter_cons, List.filter_cons, if_pos (by simp [hm]), if_pos (by simp [hm])]
      have := toggleList_others u i k rs
      unfold reactionsOfOthers at this
      rw [this]

/-- Under the uniqueness invariant, toggling with the kind already
present deletes the pair's reaction. -/
theorem toggleList_of_same (u i : String) (k : Kind) :
    ∀ rs : List Reaction,
      rs.Pairwise (fun a b => ¬(a.userId = b.userId ∧ a.itemId = b.itemId)) →
      ({ userId := u, itemId := i, kind := k } : Reaction) ∈ rs →
      reactionsOf (toggleList u i k rs) u i = []
  | [], _, hmem => absurd hmem (by simp)
  | r :: rs, hpw, hmem => by
    obtain ⟨hr, hpw2⟩ := List.pairwise_cons.mp hpw
    unfold toggleList
    by_cases hm : (r.userId == u && r.itemId == i) = true
    · have hui : r.userId = u ∧ r.itemId = i := by simpa using hm
      by_cases hk : (r.kind == k) = true
      · rw [if_pos hm, if_pos hk]
        unfold reactionsOf
        rw [List.filter_eq_nil_iff]
        intro b hb hmb
        have hb2 : b.userId = u ∧ b.itemId = i := by simpa using hmb
        exact hr b hb ⟨hui.1.trans hb2.1.symm, hui.2.trans hb2.2.symm⟩
      · exfalso
        rcases List.mem_cons.mp hmem with heq | hmemtl
        · rw [← heq] at hk
          simp at hk
        · exact hr _ hmemtl (by simp [hui.1, hui.2])
    · rw [if_neg hm]
      have hmemtl : ({ userId := u, itemId := i, kind := k } : Reaction) ∈ rs := by
        rcases List.mem_cons.mp hmem with heq | hmemtl
        · rw [← heq] at hm
          simp at hm
        · exact hmemtl
      unfold reactionsOf
      rw [List.filter_cons, if_neg hm]
      exact toggleList_of_same u i k rs hpw2 hmemtl

/-- Under the uniqueness invariant, toggling against a reaction of the
other kind rewrites its kind in place. -/
theorem toggleList_of_other (u i : String) (k k0 : Kind) (hne : k0 ≠ k) :
    ∀ rs : List Reaction,
      rs.Pairwise (fun a b => ¬(a.userId = b.userId ∧ a.itemId = b.itemId)) →
      ({ userId := u, itemId := i, kind := k0 } : Reaction) ∈ rs →
      reactionsOf (toggleList u i k rs) u i = [{ userId := u, itemId := i, kind := k }]
  | [], _, hmem => absurd hmem (by simp)
  | r :: rs, hpw, hmem => by
    obtain ⟨hr, hpw2⟩ := List.pairwise_cons.mp hpw
    unfold toggleList
    by_cases hm : (r.userId == u && r.itemId == i) = true
    · have hui : r.userId = u ∧ r.itemId = i := by simpa using hm
      by_cases hk : (r.kind == k) = true
      · exfalso
        rcases List.mem_cons.mp hmem with heq | hmemtl
        · rw [← heq] at hk
          simp at hk
          exact hne hk
        · exact hr _ hmemtl (by simp [hui.1, hui.2])
      · rw [if_pos hm, if_neg hk]
        unfold reactionsOf
        rw [List.filter_cons,
            if_pos (show (({ r with kind := k } : Reaction).userId == u &&
              ({ r with kind := k } : Reaction).itemId == i) = true from hm)]
        have htl : List.filter (fun r => r.userId == u && r.itemId == i) rs = [] := by
          rw [List.filter_eq_nil_iff]
          intro b hb hmb
          have hb2 : b.userId = u ∧ b.itemId = i := by simpa using hmb
          exact hr b hb ⟨hui.1.trans hb2.1.symm, hui.2.trans hb2.2.symm⟩
        rw [htl]
        have : ({ r with kind := k } : Reaction) =
            { userId := u, itemId := i, kind := k } := by
          cases r
          simp only at hui ⊢
          rw [hui.1, hui.2]
        rw [this]
    · rw [if_neg hm]
      have hmemtl : ({ userId := u, itemId := i, kind := k0 } : Reaction) ∈ rs := by
        rcases List.mem_cons.mp hmem with heq | hmemtl
        · rw [← heq] at hm
          simp at hm
        · exact hmemtl
      unfold reactionsOf
      rw [List.filter_cons, if_neg hm]
      exact toggleList_of_other u i k k0 hne rs hpw2 hmemtl

/-- The toggle-reaction state machine specification (claim C1): with no
reaction of the pair a reaction of the requested kind is pushed; with a
same-kind reaction present the pair's reaction is deleted; with an
other-kind reaction present it is updated to the requested kind; other
pairs' reactions are untouched, and the returned payload carries the
like and dislike counts of the item recomputed over the post-transition
reaction set. -/
def ToggleSpec (s : Store) (u i : String) (k : Kind) : Prop :=
  (reactionsOf s.reactions u i = [] →
    (toggleReaction s u i k).1.reactions =
      s.reactions ++ [{ userId := u, itemId := i, kind := k }]) ∧
  (({ userId := u, itemId := i, kind := k } : Reaction) ∈ s.reactions →
    reactionsOf (toggleReaction s u i k).1.reactions u i = []) ∧
  (∀ k0, k0 ≠ k → ({ userId := u, itemId := i, kind := k0 } : Reaction) ∈ s.reactions →
    reactionsOf (toggleReaction s u i k).1.reactions u i =
      [{ userId := u, itemId := i, kind := k }]) ∧
  reactionsOfOthers (toggleReaction s u i k).1.reactions u i =
    reactionsOfOthers s.reactions u i ∧
  (toggleReaction s u i k).2.itemId = i ∧
  (toggleReaction s u i k).2.likes =
    ((toggleReaction s u i k).1.reactions.filter
      (fun r => r.itemId == i && r.kind == Kind.LIKE)).length ∧
  (toggleReaction s u i k).2.dislikes =
    ((toggleReaction s u i k).1.reactions.filter
      (fun r => r.itemId == i && r.kind == Kind.DISLIKE)).length

/-- C1: the toggle-reaction endpoint follows the state machine table and
returns the recomputed like/dislike counts, under the at-most-one
reaction invariant. -/
theorem toggleReaction_spec (s : Store) (u i : String) (k : Kind)
    (h : AtMostOnePerPair s) : ToggleSpec s u i k := by
  refine ⟨?_, ?_, ?_, ?_, rfl, rfl, rfl⟩
  · intro h0
    show toggleList u i k s.reactions = _
    exact toggleList_of_none u i k s.reactions h0
  · intro hmem
    exact toggleList_of_same u i k s.reactions h hmem
  · intro k0 hne hmem
    exact toggleList_of_other u i k k0 hne s.reactions h hmem
  · exact toggleList_others u i k s.reactions

theorem toggleReaction_spec_witness :
    AtMostOnePerPair sampleStore ∧ ToggleSpec sampleStore "u2" "it1" Kind.DISLIKE :=
  ⟨by decide, toggleReaction_spec sampleStore "u2" "it1" Kind.DISLIKE (by decide)⟩

/-- The phone-participant loop touches only the user collection. -/
theorem addPhoneParticipants_collections :
    ∀ (phones : List String) (s : Store) (newListId : String) (pids : List String)
      (fresh : Nat → String) (n : Nat) (now : String),
      (addPhoneParticipants s newListId pids phones fresh n now).1.products = s.products ∧
      (addPhoneParticipants s newListId pids phones fresh n now).1.shopLists = s.shopLists ∧
      (addPhoneParticipants s newListId pids phones fresh n now).1.shopListItems =
        s.shopListItems ∧
      (addPhoneParticipants s newListId pids phones fresh n now).1.reactions = s.reactions ∧
      (addPhoneParticipants s newListId pids phones fresh n now).1.suggestions = s.suggestions
  | [], _, _, _, _, _, _ => ⟨rfl, rfl, rfl, rfl, rfl⟩
  | ph :: rest, s, newListId, pids, fresh, n, now => by
    unfold addPhoneParticipants findOrCreateUserByPhone
    cases hf : s.users.find? (fun x => x.phoneNumber == ph) with
    | some u =>
      exact addPhoneParticipants_collections rest _ newListId _ fresh (n + 1) now
    | none =>
      exact addPhoneParticipants_collections rest _ newListId _ fresh (n + 1) now

/-- Every element of a toggled reaction array either has the toggled
pair's key or was already present. -/
theorem toggleList_mem (u i : String) (k : Kind) :
    ∀ rs : List Reaction, ∀ b ∈ toggleList u i k rs,
      (b.userId = u ∧ b.itemId = i) ∨ b ∈ rs
  | [], b, hb => by
    simp only [toggleList, List.mem_singleton] at hb
    subst hb
    exact .inl ⟨rfl, rfl⟩
  | r :: rs, b, hb => by
    unfold toggleList at hb
    by_cases hm : (r.userId == u && r.itemId == i) = true
    · rw [if_pos hm] at hb
      by_cases hk : (r.kind == k) = true
      · rw [if_pos hk] at hb
        exact .inr (List.mem_cons_of_mem r hb)
      · rw [if_neg hk] at hb
        rcases List.mem_cons.mp hb with heq | hmemtl
        · subst heq
          exact .inl (by simpa using hm)
        · exact .inr (List.mem_cons_of_mem r hmemtl)
    · rw [if_neg hm] at hb
      rcases List.mem_cons.mp hb with heq | hmemtl
      · exact .inr (by rw [heq]; exact List.mem_cons_self r rs)
      · rcases toggleList_mem u i k rs b hmemtl with hkey | hmem
        · exact .inl hkey
        · exact .inr (List.mem_cons_of_mem r hmem)

/-- Toggling preserves pairwise distinctness of (user, item) keys. -/
theorem toggleList_pairwise (u i : String) (k : Kind) :
    ∀ rs : List Reaction,
      rs.Pairwise (fun a b => ¬(a.userId = b.userId ∧ a.itemId = b.itemId)) →
      (toggleList u i k rs).Pairwise
        (fun a b => ¬(a.userId = b.userId ∧ a.itemId = b.itemId))
  | [], _ => by simp [toggleList]
  | r :: rs, hpw => by
    obtain ⟨hr, hpw2⟩ := List.pairwise_cons.mp hpw
    unfold toggleList
    by_cases hm : (r.userId == u && r.itemId == i) = true
    · rw [if_pos hm]
      by_cases hk : (r.kind == k) = true
      · rw [if_pos hk]
        exact hpw2
      · rw [if_neg hk]
        exact List.pairwise_cons.mpr ⟨fun b hb => hr b hb, hpw2⟩
    · rw [if_neg hm]
      refine List.pairwise_cons.mpr ⟨?_, toggleList_pairwise u i k rs hpw2⟩
      intro b hb hkey
      have hnm : ¬(r.userId = u ∧ r.itemId = i) := by
        intro hc
        exact hm (by simp [hc.1, hc.2])
      rcases toggleList_mem u i k rs b hb with hbkey | hbmem
      · exact hnm ⟨hkey.1.trans hbkey.1, hkey.2.trans hbkey.2⟩
      · exact hr b hbmem hkey

/-- Creating a list never touches the reaction collection. -/
theorem createListResult_reactions (s : Store) (ownerId name : String)
    (visibility : Visibility) (phones : List String) (newListId : String)
    (fresh : Nat → String) (now : String) :
    (createListResult s ownerId name visibility phones newListId fresh now).1.reactions =
      s.reactions :=
  (addPhoneParticipants_collections phones _ newListId _ fresh 0 now).2.2.2.1

/-- Each operation either leaves the reaction collection unchanged,
applies the toggle transition to it, or filters it. -/
theorem step_reactions (s : Store) (op : Op) :
    (step s op).reactions = s.reactions ∨
    (∃ u i k, (step s op).reactions = toggleList u i k s.reactions) ∨
    (∃ p : Reaction → Bool, (step s op).reactions = s.reactions.filter p) := by
  cases op with
  | createList ownerId rawName vis phones newListId fresh now =>
    left
    dsimp only [step, createList]
    by_cases hname : rawName.length = 0
    · rw [if_pos hname]
    · rw [if_neg hname]
      exact createListResult_reactions s ownerId (trimString rawName) (vis.getD .LINK)
        phones newListId fresh now
  | deleteList id =>
    dsimp only [step, deleteList]
    cases hfind : s.shopLists.find? (fun x => x.id == id) with
    | none => left; rfl
    | some l0 => right; right; exact ⟨_, rfl⟩
  | joinList listId userId now =>
    dsimp only [step, joinList]
    cases hfind : s.shopLists.find? (fun l => l.id == listId) with
    | none => left; rfl
    | some l0 => left; rfl
  | addItem listId productIdRaw userId newId now =>
    dsimp only [step, addItem]
    cases productIdRaw with
    | none => left; rfl
    | some pid =>
      dsimp only
      by_cases hz : pid = 0
      · rw [if_pos hz]
        left; rfl
      · rw [if_neg hz]
        cases hf : s.products.find? (fun p => p.id == pid) with
        | none => left; rfl
        | some _ => left; rfl
  | removeItem itemId =>
    dsimp only [step, removeItem]
    by_cases hx : s.shopListItems.any (fun i => i.id == itemId) = true
    · rw [if_pos hx]
      right; right; exact ⟨_, rfl⟩
    · rw [if_neg hx]
      left; rfl
  | toggleReaction userId itemId kind =>
    right; left; exact ⟨userId, itemId, kind, rfl⟩
  | addSuggestion itemId productId byUserId newId ts =>
    dsimp only [step, addSuggestion]
    cases hf : s.products.find? (fun p => p.id == productId) with
    | none => left; rfl
    | some _ => left; rfl

/-- One step preserves the at-most-one-reaction-per-pair invariant. -/
theorem atMostOne_step (s : Store) (op : Op) (h : AtMostOnePerPair s) :
    AtMostOnePerPair (step s op) := by
  unfold AtMostOnePerPair at *
  rcases step_reactions s op with he | ⟨u, i, k, he⟩ | ⟨p, he⟩
  · rw [he]; exact h
  · rw [he]; exact toggleList_pairwise u i k s.reactions h
  · rw [he]; exact List.Pairwise.sublist (List.filter_sublist _) h

/-- C3: from any state with at most one reaction per (user, item) pair,
every sequence of entity operations again yields a state with at most
one reaction per pair. -/
theorem atMostOnePerPair_steps (s : Store) (ops : List Op) (h : AtMostOnePerPair s) :
    AtMostOnePerPair (steps s ops) := by
  induction ops generalizing s with
  | nil => exact h
  | cons op rest ih => exact ih (step s op) (atMostOne_step s op h)

theorem atMostOnePerPair_steps_witness :
    AtMostOnePerPair sampleStore ∧
    AtMostOnePerPair (steps sampleStore
      [Op.toggleReaction "u1" "it1" Kind.LIKE, Op.deleteList "L1",
       Op.joinList "L2" "u2" "t9"]) :=
  ⟨by decide, atMostOnePerPair_steps sampleStore _ (by decide)⟩

/-- `map` ignores a first-match update that preserves the mapped
value. -/
theorem map_updateFirst (g : α → β) (p : α → Bool) (f : α → α) (hg : ∀ a, g (f a) = g a) :
    ∀ l : List α, (updateFirst p f l).map g = l.map g
  | [] => rfl
  | a :: as => by
    by_cases h : p a <;>
      simp [updateFirst, h, hg a, map_updateFirst g p f hg as]

/-- Creating a list never touches the item collection. -/
theorem createListResult_items (s : Store) (ownerId name : String)
    (visibility : Visibility) (phones : List String) (newListId : String)
    (fresh : Nat → String) (now : String) :
    (createListResult s ownerId name visibility phones newListId fresh now).1.shopListItems =
      s.shopListItems :=
  (addPhoneParticipants_collections phones _ newListId _ fresh 0 now).2.2.1

/-- Creating a list never touches the suggestion collection. -/
theorem createListResult_suggestions (s : Store) (ownerId name : String)
    (visibility : Visibility) (phones : List String) (newListId : String)
    (fresh : Nat → String) (now : String) :
    (createListResult s ownerId name visibility phones newListId fresh now).1.suggestions =
      s.suggestions :=
  (addPhoneParticipants_collections phones _ newListId _ fresh 0 now).2.2.2.2

/-- Creating a list unshifts the new list onto the untouched list
collection. -/
theorem createListResult_lists (s : Store) (ownerId name : String)
    (visibility : Visibility) (phones : List String) (newListId : String)
    (fresh : Nat → String) (now : String) :
    (createListResult s ownerId name visibility phones newListId fresh now).1.shopLists =
      (createListResult s ownerId name visibility phones newListId fresh now).2 ::
        s.shopLists := by
  show _ :: (addPhoneParticipants _ newListId _ phones fresh 0 now).1.shopLists = _
  rw [(addPhoneParticipants_collections phones _ newListId _ fresh 0 now).2.1]
  exact rfl

/-- One guarded step preserves orphan-freeness. -/
theorem orphanFree_step (s : Store) (op : Op) (h : OrphanFree s) (hg : opGuard s op) :
    OrphanFree (step s op) := by
  obtain ⟨hit, hre, hsg⟩ := h
  cases op with
  | createList ownerId rawName vis phones newListId fresh now =>
    dsimp only [step, createList]
    by_cases hname : rawName.length = 0
    · rw [if_pos hname]
      exact ⟨hit, hre, hsg⟩
    · rw [if_neg hname]
      refine ⟨?_, ?_, ?_⟩
      · intro it hmem
        rw [createListResult_items] at hmem
        unfold Store.listIds
        rw [createListResult_lists, List.map_cons]
        exact List.mem_cons_of_mem _ (hit it hmem)
      · intro r hmem
        rw [createListResult_reactions] at hmem
        unfold Store.itemIds
        rw [createListResult_items]
        exact hre r hmem
      · intro g hmem
        rw [createListResult_suggestions] at hmem
        unfold Store.itemIds
        rw [createListResult_items]
        exact hsg g hmem
  | deleteList id =>
    dsimp only [step, deleteList]
    cases hfind : s.shopLists.find? (fun x => x.id == id) with
    | none => exact ⟨hit, hre, hsg⟩
    | some l0 =>
      dsimp only
      refine ⟨?_, ?_, ?_⟩
      · intro it hmem
        have hm := List.mem_filter.mp hmem
        have hne : it.shopListId ≠ id := by simpa using hm.2
        have h1 := hit it hm.1
        unfold Store.listIds at h1 ⊢
        obtain ⟨l, hl, hlid⟩ := List.mem_map.mp h1
        refine List.mem_map.mpr ⟨l, List.mem_filter.mpr ⟨hl, ?_⟩, hlid⟩
        rw [bne_iff_ne]
        intro hc
        exact hne (by rw [← hlid, hc])
      · intro r hmem
        have hm := List.mem_filter.mp hmem
        obtain ⟨it, hitm, hiteq⟩ := List.any_eq_true.mp hm.2
        unfold Store.itemIds
        exact List.mem_map.mpr ⟨it, hitm, by simpa using hiteq⟩
      · intro g hmem
        have hm := List.mem_filter.mp hmem
        obtain ⟨it, hitm, hiteq⟩ := List.any_eq_true.mp hm.2
        unfold Store.itemIds
        exact List.mem_map.mpr ⟨it, hitm, by simpa using hiteq⟩
  | joinList listId userId now =>
    dsimp only [step, joinList]
    cases hfind : s.shopLists.find? (fun l => l.id == listId) with
    | none => exact ⟨hit, hre, hsg⟩
    | some l0 =>
      dsimp only
      refine ⟨?_, hre, hsg⟩
      intro it hmem
      unfold Store.listIds
      rw [map_updateFirst (fun l : ShopList => l.id) _ (joinListFun userId now)
        (fun a => rfl)]
      exact hit it hmem
  | addItem listId productIdRaw userId newId now =>
    dsimp only [step, addItem]
    cases productIdRaw with
    | none => exact ⟨hit, hre, hsg⟩
    | some pid =>
      dsimp only
      by_cases hz : pid = 0
      · rw [if_pos hz]
        exact ⟨hit, hre, hsg⟩
      · rw [if_neg hz]
        cases hf : s.products.find? (fun p => p.id == pid) with
        | none => exact ⟨hit, hre, hsg⟩
        | some _ =>
          refine ⟨?_, ?_, ?_⟩
          · intro it hmem
            rcases List.mem_cons.mp hmem with heq | hold
            · rw [heq]
              exact hg
            · exact hit it hold
          · intro r hmem
            have h2 := hre r hmem
            unfold Store.itemIds at h2 ⊢
            rw [List.map_cons]
            exact List.mem_cons_of_mem _ h2
          · intro g hmem
            have h2 := hsg g hmem
            unfold Store.itemIds at h2 ⊢
            rw [List.map_cons]
            exact List.mem_cons_of_mem _ h2
  | removeItem itemId =>
    dsimp only [step, removeItem]
    by_cases hx : s.shopListItems.any (fun i => i.id == itemId) = true
    · rw [if_pos hx]
      refine ⟨?_, ?_, ?_⟩
      · intro it hmem
        exact hit it (List.mem_filter.mp hmem).1
      · intro r hmem
        have hm := List.mem_filter.mp hmem
        have hne : r.itemId ≠ itemId := by simpa using hm.2
        have h2 := hre r hm.1
        unfold Store.itemIds at h2 ⊢
        obtain ⟨it, hitm, hiteq⟩ := List.mem_map.mp h2
        refine List.mem_map.mpr ⟨it, List.mem_filter.mpr ⟨hitm, ?_⟩, hiteq⟩
        rw [bne_iff_ne]
        intro hc
        exact hne (by rw [← hiteq, hc])
      · intro g hmem
        have hm := List.mem_filter.mp hmem
        have hne : g.itemId ≠ itemId := by simpa using hm.2
        have h2 := hsg g hm.1
        unfold Store.itemIds at h2 ⊢
        obtain ⟨it, hitm, hiteq⟩ := List.mem_map.mp h2
        refine List.mem_map.mpr ⟨it, List.mem_filter.mpr ⟨hitm, ?_⟩, hiteq⟩
        rw [bne_iff_ne]
        intro hc
        exact hne (by rw [← hiteq, hc])
    · rw [if_neg hx]
      exact ⟨hit, hre, hsg⟩
  | toggleReaction userId itemId kind =>
    dsimp only [step, toggleReaction]
    refine ⟨hit, ?_, hsg⟩
    intro r hmem
    rcases toggleList_mem userId itemId kind s.reactions r hmem with hkey | hold
    · unfold Store.itemIds
      rw [hkey.2]
      exact hg
    · exact hre r hold
  | addSuggestion itemId productId byUserId newId ts =>
    dsimp only [step, addSuggestion]
    cases hf : s.products.find? (fun p => p.id == productId) with
    | none => exact ⟨hit, hre, hsg⟩
    | some _ =>
      refine ⟨hit, hre, ?_⟩
      intro g hmem
      rcases List.mem_append.mp hmem with hold | hnew
      · exact hsg g hold
      · have hgq : g = ({ id := newId, itemId := itemId, suggestedProductId := productId, byUserId := byUserId, ts := ts } : Suggestion) := by
          simpa using hnew
        unfold Store.itemIds
        rw [hgq]
        exact hg

/-- C4 counterexample input: a store with one product and nothing else
satisfies orphan-freeness, yet adding an item to the non-existent list
id "ghost" succeeds and creates an orphaned item, so the claimed
invariant is not preserved by unguarded operation sequences. -/
def c4Product : Product :=
  { id := 1, name := "p", price := 10, mrp := 12, rating := 4,
    inStock := true, imageUrl := "i" }

def c4Store : Store :=
  { users := [], products := [c4Product],
    shopLists := [], shopListItems := [], reactions := [], suggestions := [] }

/-- C4 is false as stated: an entity-operation sequence from an
orphan-free state can reach a state with an orphaned item, because
add-item never checks that the target list exists. -/
theorem orphanFree_not_preserved :
    OrphanFree c4Store ∧
      ¬ OrphanFree (steps c4Store [Op.addItem "ghost" (some 1) "u1" "it9" "t0"]) := by
  constructor
  · decide
  · decide

/-- C4 amended: along traces whose operations only reference existing
targets (add-item names an existing list; toggle-reaction and
add-suggestion name an existing item), orphan-freeness is preserved
from any orphan-free start state. -/
theorem orphanFree_safeSteps (s : Store) (ops : List Op) (h : OrphanFree s)
    (hs : SafeTrace s ops) : OrphanFree (steps s ops) := by
  induction ops generalizing s with
  | nil => exact h
  | cons op rest ih =>
    exact ih (step s op) (orphanFree_step s op h hs.1) hs.2

theorem orphanFree_safeSteps_witness :
    (OrphanFree sampleStore ∧ SafeTrace sampleStore
      [Op.addItem "L1" (some 2) "u2" "it3" "t4", Op.toggleReaction "u1" "it3" Kind.LIKE,
       Op.addSuggestion "it3" 1 "u2" "sg2" "t5"]) ∧
    OrphanFree (steps sampleStore
      [Op.addItem "L1" (some 2) "u2" "it3" "t4", Op.toggleReaction "u1" "it3" Kind.LIKE,
       Op.addSuggestion "it3" 1 "u2" "sg2" "t5"]) :=
  ⟨⟨by decide, by decide⟩, orphanFree_safeSteps sampleStore _ (by decide) (by decide)⟩

def c5Item : ShopListItem :=
  { id := "it9", productId := 1, shopListId := "ghost", addedByUserId := "u1", addedAt := "t0" }

def c5Suggestion : Suggestion :=
  { id := "sg9", itemId := "ghostItem", suggestedProductId := 1, byUserId := "u1", ts := "t0" }

/-- C5 is false as stated: on a store with one product and no lists or
items, add-item to the non-existent list "ghost" succeeds, toggling a
reaction on the non-existent item "ghostItem" succeeds and stores the
reaction, and suggesting on "ghostItem" succeeds — none yields a
not-found outcome. -/
theorem missingTarget_counterexample :
    c4Store.shopLists = [] ∧ c4Store.shopListItems = [] ∧
    addItem c4Store "ghost" (some 1) "u1" "it9" "t0" =
      .ok ({ c4Store with shopListItems := [c5Item] }, c5Item) ∧
    (toggleReaction c4Store "u1" "ghostItem" Kind.LIKE).1.reactions =
      [{ userId := "u1", itemId := "ghostItem", kind := Kind.LIKE }] ∧
    addSuggestion c4Store "ghostItem" 1 "u1" "sg9" "t0" =
      .ok ({ c4Store with suggestions := [c5Suggestion] }, c5Suggestion) :=
  ⟨rfl, rfl, rfl, rfl, rfl⟩

/-- Behaviour of the entity operations on missing targets (amended
claim C5): delete-list, join-list and remove-item reject a missing id
as not-found without changing the store; add-item and add-suggestion
reject only a missing product as not-found; when the product exists,
add-item succeeds for any list id and add-suggestion succeeds for any
item id, and toggle-reaction succeeds for any item id, storing the
reaction. -/
def MissingTargetSpec (s : Store) (L itemId userId newId now : String) (pid : Nat)
    (k : Kind) : Prop :=
  (deleteList s L = .error .notFound ∧ step s (.deleteList L) = s) ∧
  (joinList s L userId now = .error .notFound ∧ step s (.joinList L userId now) = s) ∧
  (removeItem s itemId = .error .notFound ∧ step s (.removeItem itemId) = s) ∧
  (s.products.find? (fun p => p.id == pid) = none →
    addItem s L (some pid) userId newId now = .error .notFound ∧
    addSuggestion s itemId pid userId newId now = .error .notFound) ∧
  ((∃ prod ∈ s.products, prod.id = pid) →
    addItem s L (some pid) userId newId now =
      .ok ({ s with shopListItems :=
        { id := newId, productId := pid, shopListId := L,
          addedByUserId := userId, addedAt := now } :: s.shopListItems },
        { id := newId, productId := pid, shopListId := L,
          addedByUserId := userId, addedAt := now }) ∧
    addSuggestion s itemId pid userId newId now =
      .ok ({ s with suggestions := s.suggestions ++
        [{ id := newId, itemId := itemId, suggestedProductId := pid,
           byUserId := userId, ts := now }] },
        { id := newId, itemId := itemId, suggestedProductId := pid,
          byUserId := userId, ts := now })) ∧
  (reactionsOf s.reactions userId itemId = [] →
    (toggleReaction s userId itemId k).1.reactions =
      s.reactions ++ [{ userId := userId, itemId := itemId, kind := k }])

theorem missingTarget_behavior (s : Store) (L itemId userId newId now : String)
    (pid : Nat) (k : Kind) (hL : ¬ listExists s L) (hitem : itemId ∉ s.itemIds)
    (hpid : pid ≠ 0) : MissingTargetSpec s L itemId userId newId now pid k := by
  have hLfind : ∀ q : ShopList → Bool, (∀ x, q x = (x.id == L)) →
      s.shopLists.find? q = none := by
    intro q hq
    rw [List.find?_eq_none]
    intro x hx
    rw [hq x]
    simp only [beq_iff_eq]
    intro hc
    exact hL ⟨x, hx, hc⟩
  have hany : s.shopListItems.any (fun i => i.id == itemId) = false := by
    rw [Bool.eq_false_iff]
    intro hc
    obtain ⟨it, hitm, hiteq⟩ := List.any_eq_true.mp hc
    exact hitem (List.mem_map.mpr ⟨it, hitm, by simpa using hiteq⟩)
  refine ⟨⟨?_, ?_⟩, ⟨?_, ?_⟩, ⟨?_, ?_⟩, ?_, ?_, ?_⟩
  · unfold deleteList
    rw [hLfind _ (fun x => rfl)]
  · dsimp only [step, deleteList]
    rw [hLfind _ (fun x => rfl)]
  · unfold joinList
    rw [hLfind _ (fun x => rfl)]
  · dsimp only [step, joinList]
    rw [hLfind _ (fun x => rfl)]
  · unfold removeItem
    rw [hany]
    rfl
  · dsimp only [step, removeItem]
    rw [hany]
    rfl
  · intro hno
    unfold addItem addSuggestion
    dsimp only
    rw [if_neg hpid, hno]
    exact ⟨rfl, rfl⟩
  · intro ⟨prod, hmem, hid⟩
    have hf : s.products.find? (fun p => p.id == pid) ≠ none := fun hc =>
      absurd (by simp [hid] : (prod.id == pid) = true)
        (List.find?_eq_none.mp hc prod hmem)
    cases hfind : s.products.find? (fun p => p.id == pid) with
    | none => exact absurd hfind hf
    | some _ =>
      unfold addItem addSuggestion
      dsimp only
      rw [if_neg hpid, hfind]
      exact ⟨rfl, rfl⟩
  · intro h0
    exact toggleList_of_none userId itemId k s.reactions h0

theorem missingTarget_behavior_witness :
    (¬ listExists sampleStore "ghost" ∧ "ghostItem" ∉ sampleStore.itemIds ∧ (2 : Nat) ≠ 0) ∧
    MissingTargetSpec sampleStore "ghost" "ghostItem" "u1" "x9" "t9" 2 Kind.LIKE :=
  ⟨by decide,
   missingTarget_behavior sampleStore "ghost" "ghostItem" "u1" "x9" "t9" 2 Kind.LIKE
     (by decide) (by decide) (by decide)⟩

/-- The pushed list id is always in the membership set afterwards. -/
theorem addListToUser_mem (listId : String) (u : User) :
    listId ∈ (addListToUser listId u).shopListIds := by
  unfold addListToUser
  by_cases hc : u.shopListIds.contains listId = true
  · rw [if_pos hc]
    simpa using hc
  · rw [if_neg hc]
    simp

/-- C8 is false as stated: the raw name " " passes the non-empty
validation, yet the stored list's name is the trimmed name "", an
empty string. -/
theorem createList_emptyName_counterexample :
    (createList sampleStore "u1" " " none [] "L9" (fun _ => "f") "t9").toOption.map
      (fun res => res.2.name) = some "" ∧
    (createList sampleStore "u1" " " none [] "L9" (fun _ => "f") "t9").toOption.map
      (fun res => decide (res.2 ∈ res.1.shopLists)) = some true := by
  constructor
  · decide
  · decide

/-- Create-list specification (amended claim C8): the empty raw name is
rejected as invalid input; any other raw name succeeds (with no phone
numbers supplied), the created list's visibility defaults to LINK when
none was given, its participant set is exactly the owner, the list is
stored, the owner is its owner and a participant, the list id enters
the first matching owner user's membership set, and the stored name is
the trimmed raw name — hence non-empty exactly when the trimmed raw
name is. -/
def CreateListSpec (s : Store) (ownerId rawName : String) (vis : Option Visibility)
    (newListId : String) (fresh : Nat → String) (now : String) : Prop :=
  createList s ownerId "" vis [] newListId fresh now = .error .invalidInput ∧
  (rawName.length ≠ 0 →
    ∃ s1 list, createList s ownerId rawName vis [] newListId fresh now = .ok (s1, list) ∧
      list.name = trimString rawName ∧
      (vis = none → list.visibility = .LINK) ∧
      list.participantIds = [ownerId] ∧
      list.ownerId = ownerId ∧
      ownerId ∈ list.participantIds ∧
      s1.shopLists = list :: s.shopLists ∧
      (∀ u0, s.users.find? (fun x => x.id == ownerId) = some u0 →
        s1.users.find? (fun x => x.id == ownerId) = some (addListToUser newListId u0) ∧
        newListId ∈ (addListToUser newListId u0).shopListIds))

/-- C8 (amended): the create-list contract, with the stored name being
the trimmed input rather than unconditionally non-empty. -/
theorem createList_spec (s : Store) (ownerId rawName : String) (vis : Option Visibility)
    (newListId : String) (fresh : Nat → String) (now : String) :
    CreateListSpec s ownerId rawName vis newListId fresh now := by
  constructor
  · rfl
  · intro hname
    unfold createList
    rw [if_neg hname]
    refine ⟨_, _, rfl, rfl, ?_, rfl, rfl, ?_, rfl, ?_⟩
    · intro hv
      rw [hv]
      rfl
    · exact List.mem_singleton.mpr rfl
    · intro u0 hu0
      constructor
      · show (updateFirst (fun x : User => x.id == ownerId) (addListToUser newListId)
            s.users).find? (fun x => x.id == ownerId) = _
        rw [find?_updateFirst (fun x => x.id == ownerId) (addListToUser newListId)
          (fun a => by
            show ((addListToUser newListId a).id == ownerId) = (a.id == ownerId)
            rw [addListToUser_id]), hu0]
        rfl
      · exact addListToUser_mem newListId u0

theorem createList_spec_witness :
    CreateListSpec sampleStore "u1" "Gifts" none "L9" (fun _ => "f") "t9" :=
  createList_spec sampleStore "u1" "Gifts" none "L9" (fun _ => "f") "t9"

/-- The items underlying the listing are exactly (a reordering of) the
items whose owning list id matches. -/
theorem listItemsOf_perm (s : Store) (L : String) :
    ((listItemsOf s L).map (fun e => e.item)).Perm
      (s.shopListItems.filter (fun i => i.shopListId == L)) := by
  unfold listItemsOf
  rw [List.map_map]
  have hid : ((fun e : EnrichedItem => e.item) ∘ enrichItem s) = fun i => i := rfl
  rw [hid, List.map_id']
  exact List.mergeSort_perm _ _

def c9Item : ShopListItem :=
  { id := "o1", productId := 1, shopListId := "ghost", addedByUserId := "u1", addedAt := "t0" }

/-- A store holding one orphaned item that references the non-existent
list id "ghost". -/
def c9Store : Store :=
  { users := [], products := [], shopLists := [], shopListItems := [c9Item],
    reactions := [], suggestions := [] }

/-- C9 is false as stated: listing the items of the non-existent list
id "ghost" on a store with an orphaned item owned by "ghost" returns a
non-empty collection, not an empty one. -/
theorem listItems_missing_counterexample :
    c9Store.shopLists = [] ∧ listItemsOf c9Store "ghost" ≠ [] := by
  refine ⟨rfl, ?_⟩
  intro hnil
  have hp := listItemsOf_perm c9Store "ghost"
  rw [hnil] at hp
  have hlen := hp.length_eq
  have : c9Store.shopListItems.filter (fun i => i.shopListId == "ghost") = [c9Item] := by
    decide
  rw [this] at hlen
  simp at hlen

/-- Listing specification (amended claim C9): the listing is total —
any list id, existing or not, yields a result — whose underlying items
are exactly the items owned by that id; for a non-existent id the
result is empty exactly when no orphaned item references the id, in
particular in every orphan-free state. -/
def ListItemsSpec (s : Store) (L : String) : Prop :=
  ((listItemsOf s L).map (fun e => e.item)).Perm
    (s.shopListItems.filter (fun i => i.shopListId == L)) ∧
  (¬ listExists s L → OrphanFree s → listItemsOf s L = [])

/-- C9 (amended): the listing returns exactly the items owned by the
requested id without checking list existence, and is empty for a
missing id only in orphan-free states. -/
theorem listItemsOf_spec (s : Store) (L : String) : ListItemsSpec s L := by
  refine ⟨listItemsOf_perm s L, ?_⟩
  intro hmiss h
  have hfil : s.shopListItems.filter (fun i => i.shopListId == L) = [] := by
    rw [List.filter_eq_nil_iff]
    intro it hitm hc
    have : it.shopListId = L := by simpa using hc
    obtain ⟨l, hl, hlid⟩ := List.mem_map.mp (h.1 it hitm)
    exact hmiss ⟨l, hl, by rw [hlid, this]⟩
  unfold listItemsOf
  rw [hfil, List.mergeSort_nil]
  rfl
